import Mathlib

/-!
Shallow embedding of `main.py` from the `public_price_stock` repository.

The program is a linear extract-transform-load pipeline over an in-memory
table.  Pure Python functions (`to_bucket`, `make_unique`, `clean_cell`,
`apply_business_rules`, the dataframe shaping in `read_table`, the control
flow of `resolve_item_id` and `main`) are embedded as Lean functions.
HTTP responses, the MSAL token and filesystem writes are passed in as
explicit oracle values; pandas dataframes are modelled as a list of column
names plus a list of rows.

Python `float()` parsing is modelled exactly over the rationals (sign,
integer/fraction digit groups with single underscores between digits, and
a decimal exponent), with truncation toward zero for `int()`; IEEE-754
rounding and overflow to infinity are not modelled.
-/

namespace PublicPriceStock

/-- Whitespace characters removed by Python `str.strip()` (ASCII subset). -/
def isPySpace (c : Char) : Bool :=
  c = ' ' || c = '\t' || c = '\n' || c = '\r' || c = '\x0b' || c = '\x0c'

/-- `str.strip()` on a character list: drop whitespace from both ends. -/
def pyStripL (l : List Char) : List Char :=
  ((l.dropWhile isPySpace).reverse.dropWhile isPySpace).reverse

/-- `str.strip()` on a string. -/
def pyStrip (s : String) : String :=
  ⟨pyStripL s.data⟩

/-- `str.lower()` (ASCII letters; the column names compared here are ASCII). -/
def pyLower (s : String) : String :=
  ⟨s.data.map Char.toLower⟩

/-- Decimal digit characters `'0'..'9'`. -/
def digitChar (n : Nat) : Char :=
  match n with
  | 0 => '0' | 1 => '1' | 2 => '2' | 3 => '3' | 4 => '4'
  | 5 => '5' | 6 => '6' | 7 => '7' | 8 => '8' | 9 => '9'
  | _ => '*'

/-- Decimal printer for `Nat` (models Python's `str`/f-string formatting of
an `int`); the first argument is fuel, always called with fuel `n + 1`. -/
def natToChars : Nat → Nat → List Char
  | 0, _ => []
  | f + 1, n => if n < 10 then [digitChar n] else natToChars f (n / 10) ++ [digitChar (n % 10)]

/-- Python decimal rendering of a natural number. -/
def natToStr (n : Nat) : String :=
  ⟨natToChars (n + 1) n⟩

/-! ## `to_bucket` (main.py lines 163-173) -/

/-- Numeric value of a list of decimal digit characters, most significant first. -/
def digitsVal (l : List Char) : Nat :=
  l.foldl (fun a c => a * 10 + (c.toNat - 48)) 0

/-- Python `digitpart`: a digit, then digits with single underscores allowed
between digits.  Returns the digits collected and the unconsumed rest. -/
def digitGroup : List Char → List Char × List Char
  | '_' :: c :: t =>
    if c.isDigit then
      let (ds, r) := digitGroup t
      (c :: ds, r)
    else ([], '_' :: c :: t)
  | c :: t =>
    if c.isDigit then
      let (ds, r) := digitGroup t
      (c :: ds, r)
    else ([], c :: t)
  | [] => ([], [])

/-- A digitpart must start with a digit (no leading underscore). -/
def digitPart (l : List Char) : Option (List Char × List Char) :=
  match l with
  | c :: t =>
    if c.isDigit then
      let (ds, r) := digitGroup t
      some (c :: ds, r)
    else none
  | [] => none

/-- Mantissa of a Python float literal: `digits [. digits]` or `. digits`.
Returns the combined digits' value, the number of fractional digits, and
the unconsumed rest. -/
def parseMantissa (l : List Char) : Option (Nat × Nat × List Char) :=
  match digitPart l with
  | some (ip, r1) =>
    match r1 with
    | '.' :: r2 =>
      match digitPart r2 with
      | some (fp, r3) => some (digitsVal (ip ++ fp), fp.length, r3)
      | none => some (digitsVal ip, 0, r2)
    | _ => some (digitsVal ip, 0, r1)
  | none =>
    match l with
    | '.' :: r2 =>
      match digitPart r2 with
      | some (fp, r3) => some (digitsVal fp, fp.length, r3)
      | none => none
    | _ => none

/-- Exponent suffix of a Python float literal; `none` on a malformed rest,
`some e` when the rest is empty or a well-formed `e`/`E` exponent. -/
def parseExponent (l : List Char) : Option Int :=
  match l with
  | [] => some 0
  | c :: r =>
    if c = 'e' || c = 'E' then
      match r with
      | '+' :: d =>
        match digitPart d with
        | some (ds, rest) => if rest = [] then some (digitsVal ds : Int) else none
        | none => none
      | '-' :: d =>
        match digitPart d with
        | some (ds, rest) => if rest = [] then some (-(digitsVal ds : Int)) else none
        | none => none
      | d =>
        match digitPart d with
        | some (ds, rest) => if rest = [] then some (digitsVal ds : Int) else none
        | none => none
    else none

/-- `int(float(val))` on an already-stripped string: parse a signed decimal
float literal exactly and truncate toward zero; `none` models a raised
`ValueError`. -/
def pyFloatTrunc (l : List Char) : Option Int :=
  let (sign, l1) : Int × List Char :=
    match l with
    | '+' :: t => (1, t)
    | '-' :: t => (-1, t)
    | _ => (1, l)
  match parseMantissa l1 with
  | none => none
  | some (m, k, rest) =>
    match parseExponent rest with
    | none => none
    | some e =>
      let mag : Nat :=
        if (k : Int) ≤ e then m * 10 ^ (e - k).toNat
        else m / 10 ^ ((k : Int) - e).toNat
      some (sign * mag)

/-- `(stock_raw or "").replace(",", ".").strip()` from `to_bucket`. -/
def prepVal (stockRaw : Option String) : List Char :=
  pyStripL ((stockRaw.getD "").data.map (fun c => if c = ',' then '.' else c))

/-- Bucket chosen for the parsed integer `n` (the `if` chain of `to_bucket`). -/
def bucketOf (n : Int) : String :=
  if n ≤ 0 then "0" else if n < 10 then "<10" else if n < 50 then "<50" else ">50"

/-- `to_bucket` (main.py lines 163-173).  The input `none` models Python
`None`; parse failures and the sentinel strings fall back to `n = 0`. -/
def to_bucket (stockRaw : Option String) : String :=
  let val := prepVal stockRaw
  let n : Int :=
    if val = [] || val = "None".data || val = "nan".data then 0
    else match pyFloatTrunc val with
      | some n => n
      | none => 0
  bucketOf n

/-! ## `make_unique` (main.py lines 116-129) -/

/-- `str(n).strip() if n is not None else ""`, then `"col"` for empty
(main.py lines 120-122).  `none` models a Python `None` name. -/
def baseOf (n : Option String) : String :=
  let b := match n with
    | none => ""
    | some s => pyStrip s
  if b = "" then "col" else b

/-- Loop of `make_unique`: `seen` is the occurrence-count dictionary
(`0` means absent, matching `base not in seen`). -/
def makeUniqueAux : List (Option String) → (String → Nat) → List String
  | [], _ => []
  | n :: rest, seen =>
    let b := baseOf n
    let k := seen b + 1
    let out := if seen b = 0 then b else b ++ "__" ++ natToStr k
    out :: makeUniqueAux rest (fun s => if s = b then k else seen s)

/-- `make_unique` (main.py lines 116-129). -/
def make_unique (names : List (Option String)) : List String :=
  makeUniqueAux names (fun _ => 0)

/-! ## `clean_cell` and `read_table` (main.py lines 131-161) -/

/-- A raw spreadsheet cell as delivered by the Graph JSON: `none` models a
`None`/NaN cell, `some s` a cell whose Python `str()` rendering is `s`. -/
abbrev RawCell := Option String

/-- Python `str(x)` on a raw cell (`str(None) = "None"`). -/
def pyStr (x : RawCell) : String :=
  match x with
  | none => "None"
  | some s => s

/-- `clean_cell` (main.py lines 131-137): NaN/None to `""`, else `str(x).strip()`. -/
def clean_cell (x : RawCell) : String :=
  match x with
  | none => ""
  | some s => pyStrip s

/-- Column count of `pd.DataFrame(body)`: the longest row (0 if no rows). -/
def ncolsOf (body : List (List RawCell)) : Nat :=
  body.foldr (fun r m => max r.length m) 0

/-- `pd.DataFrame` pads short rows with NaN up to the column count. -/
def padRow (n : Nat) (r : List RawCell) : List RawCell :=
  r ++ List.replicate (n - r.length) none

/-- In-memory model of a pandas dataframe: column names plus rows of cells. -/
structure Frame where
  cols : List String
  rows : List (List String)
deriving DecidableEq

/-- Default column names `"col1" .. "colN"` (main.py line 152). -/
def defaultCols (n : Nat) : List String :=
  (List.range n).map (fun i => "col" ++ natToStr (i + 1))

/-- `read_table` (main.py lines 140-161), with the two Graph responses as
inputs: `hdrValues` is the header range's `values` grid and `body` the data
body range's `values` grid. -/
def read_table (hdrValues : List (List RawCell)) (body : List (List RawCell)) : Frame :=
  let headers := (hdrValues.headD []).map (fun h => pyStrip (pyStr h))
  let n := ncolsOf body
  let names := if headers ≠ [] ∧ headers.length = n then headers else defaultCols n
  { cols := make_unique (names.map some),
    rows := body.map (fun r => (padRow n r).map clean_cell) }

/-! ## `apply_business_rules` (main.py lines 175-186) -/

/-- One row of `df[target] = df[target].map(f)` / scalar assignment: the cell
under each column named `target` is transformed, other cells are unchanged. -/
def mapRow (target : String) (f : String → String) : List String → List String → List String
  | c :: cs, x :: xs => (if c = target then f x else x) :: mapRow target f cs xs
  | _, xs => xs

/-- `df[target] = df[target].map(f)` on a frame. -/
def mapColByName (fr : Frame) (target : String) (f : String → String) : Frame :=
  { cols := fr.cols, rows := fr.rows.map (fun r => mapRow target f fr.cols r) }

/-- `df[name] = v` with a scalar: overwrite the column in place when the name
exists, else append a new column on the right. -/
def setCol (fr : Frame) (name : String) (v : String) : Frame :=
  if name ∈ fr.cols then
    { cols := fr.cols, rows := fr.rows.map (fun r => mapRow name (fun _ => v) fr.cols r) }
  else
    { cols := fr.cols ++ [name], rows := fr.rows.map (fun r => r ++ [v]) }

/-- `lower_map["stock"]` when present: the dict comprehension keeps the last
column whose lowercased name is `"stock"` (main.py lines 177-179). -/
def stockCol? (fr : Frame) : Option String :=
  (fr.cols.filter (fun c => pyLower c = "stock")).getLast?

/-- `to_bucket` as applied to a dataframe cell (always a string there). -/
def to_bucketCell (s : String) : String :=
  to_bucket (some s)

/-- The frame after the stock-bucketing step of `apply_business_rules`
(main.py lines 177-182): the column picked by `lower_map["stock"]` is mapped
through `to_bucket`; with no such column the frame is unchanged. -/
def preFrame (fr : Frame) : Frame :=
  match stockCol? fr with
  | some sc => mapColByName fr sc to_bucketCell
  | none => fr

/-- `apply_business_rules` (main.py lines 175-186). -/
def apply_business_rules (fr : Frame) (ts : String) : Frame :=
  setCol (preFrame fr) "updatedAt" ts

/-! ## `resolve_item_id` (main.py lines 82-113) -/

/-- Does `pat` occur at the start of `l`? -/
def leadsWith : List Char → List Char → Bool
  | [], _ => true
  | _ :: _, [] => false
  | p :: ps, c :: cs => p = c && leadsWith ps cs

/-- Python `str.replace(pat, rep)` replacing every occurrence, left to right;
the first argument is fuel, always called with the length of the subject. -/
def replaceAllAux (pat rep : List Char) : Nat → List Char → List Char
  | 0, l => l
  | f + 1, l =>
    match l with
    | [] => []
    | c :: t =>
      if leadsWith pat l ∧ pat ≠ [] then
        rep ++ replaceAllAux pat rep f (l.drop pat.length)
      else
        c :: replaceAllAux pat rep f t

/-- Python `str.replace` on strings. -/
def pyReplace (s pat rep : String) : String :=
  ⟨replaceAllAux pat.data rep.data s.data.length s.data⟩

/-- Does `pat` occur anywhere in `l` (Python `in` on strings)? -/
def containsSub : List Char → List Char → Bool
  | _, [] => leadsWith [] []
  | pat, c :: cs => leadsWith pat (c :: cs) || containsSub pat cs

/-- Python `in` for strings; an empty pattern is contained everywhere. -/
def pyContains (s pat : String) : Bool :=
  pat.data = [] || containsSub pat.data s.data

/-- Python `str.endswith`. -/
def pyEndsWith (s suffixStr : String) : Bool :=
  leadsWith suffixStr.data.reverse s.data.reverse

/-- Python `str.startswith`. -/
def pyStartsWith (s pat : String) : Bool :=
  leadsWith pat.data s.data

/-- Hex digit value for percent decoding. -/
def hexVal (c : Char) : Option Nat :=
  if '0' ≤ c ∧ c ≤ '9' then some (c.toNat - 48)
  else if 'a' ≤ c ∧ c ≤ 'f' then some (c.toNat - 87)
  else if 'A' ≤ c ∧ c ≤ 'F' then some (c.toNat - 55)
  else none

/-- `urllib.parse.unquote`, decoding each `%XX` escape to the byte's character
(single-byte approximation of the UTF-8 decode); malformed escapes are kept. -/
def unquoteL : List Char → List Char
  | '%' :: h1 :: h2 :: t =>
    match hexVal h1, hexVal h2 with
    | some a, some b => Char.ofNat (a * 16 + b) :: unquoteL t
    | _, _ => '%' :: unquoteL (h1 :: h2 :: t)
  | c :: t => c :: unquoteL t
  | [] => []

/-- `urllib.parse.unquote` on strings. -/
def pyUnquote (s : String) : String :=
  ⟨unquoteL s.data⟩

/-- Character list up to (excluding) the last `'/'`; `os.path.dirname`. -/
def dirnameL (l : List Char) : List Char :=
  match (l.reverse.dropWhile (fun c => c ≠ '/')) with
  | [] => []
  | _ :: t => t.reverse

/-- `os.path.dirname` (paths here use `/` separators). -/
def pyDirname (s : String) : String :=
  ⟨dirnameL s.data⟩

/-- `os.path.basename`: the part after the last `'/'`. -/
def pyBasename (s : String) : String :=
  ⟨(s.data.reverse.takeWhile (fun c => c ≠ '/')).reverse⟩

/-- The five string-substitution variants built from a path (main.py
lines 84-90 and 100-106 use the same pattern). -/
def pathVariants (p : String) : List String :=
  [p,
   pyReplace p "/Shared Documents" "/Documents",
   pyReplace p "/Documents" "/Shared Documents",
   if pyStartsWith p "/Shared Documents/" then pyReplace p "/Shared Documents/" "/" else p,
   if pyStartsWith p "/Documents/" then pyReplace p "/Documents/" "/" else p]

/-- Insertion-ordered deduplication: the model of the Python `set` literal
holding the candidate paths (iteration order of a `set` is unspecified; the
claims checked here do not depend on it). -/
def dedupKeepFirst : List String → List String
  | [] => []
  | x :: xs => x :: (dedupKeepFirst xs).filter (fun y => y ≠ x)

/-- An HTTP response to a `try_item_by_path` request: its status code and the
`id` field of its JSON body. -/
structure HttpResp where
  status : Nat
  id : String
deriving DecidableEq

/-- A drive item returned by the Graph search call: its `id`, `name` and
`parentReference.path`. -/
structure DriveItem where
  id : String
  name : String
  parentPath : String
deriving DecidableEq

/-- Does a search result's parent path match one of the folder variants
(main.py line 109)? -/
def parentMatches (variants : List String) (parent : String) : Bool :=
  variants.any (fun v => pyEndsWith parent v || pyContains parent ("/drive/root:" ++ v))

/-- The candidate direct paths tried by `resolve_item_id` (main.py lines 84-90). -/
def candidatesOf (xlsxPath : String) : List String :=
  dedupKeepFirst (pathVariants xlsxPath)

/-- The parent-folder variants used by the search fallback (main.py
lines 98-106). -/
def searchVariantsOf (xlsxPath : String) : List String :=
  dedupKeepFirst (pathVariants (pyReplace (pyDirname (pyUnquote xlsxPath)) "\\" "/"))

/-- `resolve_item_id` (main.py lines 82-113).  `tryPath` is the oracle giving
the HTTP response for each direct path request; `searchRes` the list of items
returned by the filename search; `Except.error` models the `RuntimeError`. -/
def resolve_item_id (xlsxPath : String) (tryPath : String → HttpResp)
    (searchRes : List DriveItem) : Except String String :=
  match (candidatesOf xlsxPath).find? (fun p => (tryPath p).status < 400) with
  | some p => Except.ok (tryPath p).id
  | none =>
    match searchRes.find?
        (fun it => parentMatches (searchVariantsOf xlsxPath) it.parentPath) with
    | some it => Except.ok it.id
    | none => Except.error "Excel workbook not found via Graph."

/-! ## `main` (main.py lines 188-215) -/

/-- Output formats written by this script family. -/
inductive OutFormat
  | csv
  | json
  | xml
deriving DecidableEq

/-- The output files written on the success path of `main` (main.py
lines 199-209): a CSV and a JSON serialization of the final frame. -/
def mainOutputs : List (String × OutFormat) :=
  [("docs/public_price_stock.csv", OutFormat.csv),
   ("docs/public_price_stock.json", OutFormat.json)]

/-- Oracle outcomes for the effectful stages of `main`: each `Except.error`
models an exception raised by that stage. -/
structure MainStages where
  getToken : Except String String
  resolveSite : String → Except String String
  resolveItem : String → String → Except String String
  readTable : String → String → String → Except String Frame
  makeOutDir : Except String Unit
  writeCsv : Frame → Except String Unit
  writeJson : Frame → Except String Unit
  ts : String

/-- The body of `main`'s `try` block up to and including the transform
(main.py lines 190-196). -/
def pipeline (st : MainStages) : Except String Frame := do
  let token ← st.getToken
  let siteId ← st.resolveSite token
  let itemId ← st.resolveItem siteId token
  let df ← st.readTable siteId itemId token
  pure (apply_business_rules df st.ts)

/-- The output stage of `main` (main.py lines 199-209): `os.makedirs`, then
`to_csv`, then `to_json`; the first failure aborts with exit code 1, keeping
the files already written. -/
def writePhase (st : MainStages) (df : Frame) : Nat × List (String × OutFormat) :=
  match st.makeOutDir with
  | Except.error _ => (1, [])
  | Except.ok _ =>
    match st.writeCsv df with
    | Except.error _ => (1, [])
    | Except.ok _ =>
      match st.writeJson df with
      | Except.error _ => (1, [("docs/public_price_stock.csv", OutFormat.csv)])
      | Except.ok _ => (0, mainOutputs)

/-- `main` (main.py lines 188-215): the exit code together with the list of
output files actually written. -/
def mainRun (st : MainStages) : Nat × List (String × OutFormat) :=
  match pipeline st with
  | Except.error _ => (1, [])
  | Except.ok df => writePhase st df

/-- Cell at row `i`, column `j` of a row-major grid. -/
def cellAt {α : Type} (rows : List (List α)) (i j : Nat) : Option α :=
  rows[i]?.bind (fun r => r[j]?)

/-- All effectful stages of `main` succeeded: the `try` body reaches the
final `return 0`. -/
def mainStagesOk (st : MainStages) : Prop :=
  ∃ df, pipeline st = Except.ok df ∧ st.makeOutDir = Except.ok () ∧
    st.writeCsv df = Except.ok () ∧ st.writeJson df = Except.ok ()

/-! ## Lemmas about `pyStrip` -/

lemma dropWhile_self {α : Type} (p : α → Bool) (l : List α) :
    (l.dropWhile p).dropWhile p = l.dropWhile p := by
  induction l with
  | nil => rfl
  | cons c t ih =>
    by_cases h : p c
    · simp [List.dropWhile_cons, h, ih]
    · simp [List.dropWhile_cons, h]

lemma dropWhile_head_false {α : Type} (p : α → Bool) (l : List α) (c : α)
    (h : (l.dropWhile p).head? = some c) : p c = false := by
  have hd := List.head?_dropWhile_not p l
  rw [h] at hd
  exact hd

lemma dropWhile_suffix_ex {α : Type} (p : α → Bool) (l : List α) :
    ∃ t, l = t ++ l.dropWhile p := by
  induction l with
  | nil => exact ⟨[], rfl⟩
  | cons c t ih =>
    by_cases h : p c
    · obtain ⟨u, hu⟩ := ih
      refine ⟨c :: u, ?_⟩
      simp only [List.dropWhile_cons, h, if_true, List.cons_append]
      exact congrArg (c :: ·) hu
    · exact ⟨[], by simp [List.dropWhile_cons, h]⟩

lemma dropWhile_eq_self_of_head {α : Type} (p : α → Bool) (m : List α)
    (h : ∀ c, m.head? = some c → p c = false) : m.dropWhile p = m := by
  cases m with
  | nil => rfl
  | cons c t => exact List.dropWhile_cons_of_neg (by simp [h c rfl])

lemma head_of_rev_dropWhile {α : Type} (p : α → Bool) (m : List α)
    (h : ∀ c, m.head? = some c → p c = false) :
    ∀ c, ((m.reverse.dropWhile p).reverse).head? = some c → p c = false := by
  intro c hc
  rw [List.head?_reverse] at hc
  obtain ⟨t, ht⟩ := dropWhile_suffix_ex p m.reverse
  have h2 : (t ++ m.reverse.dropWhile p).getLast? = some c := by
    rw [List.getLast?_append, hc]
    rfl
  rw [← ht, List.getLast?_reverse] at h2
  exact h c h2

/-- Python `str.strip()` is idempotent. -/
lemma pyStripL_idem (l : List Char) : pyStripL (pyStripL l) = pyStripL l := by
  unfold pyStripL
  have hA : ∀ c, (l.dropWhile isPySpace).head? = some c → isPySpace c = false :=
    fun c hc => dropWhile_head_false isPySpace l c hc
  have hB := head_of_rev_dropWhile isPySpace (l.dropWhile isPySpace) hA
  rw [dropWhile_eq_self_of_head isPySpace _ hB, List.reverse_reverse,
    dropWhile_self]

lemma pyStrip_idem (s : String) : pyStrip (pyStrip s) = pyStrip s :=
  congrArg String.mk (pyStripL_idem s.data)

lemma dropWhile_eq_self_of_all {α : Type} (p : α → Bool) (m : List α)
    (h : ∀ c ∈ m, p c = false) : m.dropWhile p = m :=
  dropWhile_eq_self_of_head p m (fun c hc => by
    cases m with
    | nil => simp at hc
    | cons a t =>
      have : a = c := by simpa using hc
      exact h c (this ▸ List.mem_cons_self a t))

lemma pyStripL_eq_self_of_all (l : List Char) (h : ∀ c ∈ l, isPySpace c = false) :
    pyStripL l = l := by
  unfold pyStripL
  rw [dropWhile_eq_self_of_all isPySpace l h,
    dropWhile_eq_self_of_all isPySpace l.reverse (fun c hc => h c (List.mem_reverse.1 hc)),
    List.reverse_reverse]

lemma pyStrip_eq_self_of_all (s : String) (h : ∀ c ∈ s.data, isPySpace c = false) :
    pyStrip s = s := by
  have := pyStripL_eq_self_of_all s.data h
  unfold pyStrip
  rw [this]

/-! ## Claims C1 and C9: `to_bucket` -/

lemma to_bucket_of_parse (s : String) (n : Int)
    (h : pyFloatTrunc (prepVal (some s)) = some n) :
    to_bucket (some s) = bucketOf n := by
  have h1 : prepVal (some s) ≠ [] := by
    intro he
    rw [he, show pyFloatTrunc ([] : List Char) = none from by decide] at h
    simp at h
  have h2 : prepVal (some s) ≠ "None".data := by
    intro he
    rw [he, show pyFloatTrunc "None".data = none from by decide] at h
    simp at h
  have h3 : prepVal (some s) ≠ "nan".data := by
    intro he
    rw [he, show pyFloatTrunc "nan".data = none from by decide] at h
    simp at h
  simp [to_bucket, h, h1, h2, h3]

/-- C1: for every input string whose prepared form (comma-to-dot, stripped)
parses to an integer value `n`, `to_bucket` returns `"0"` when `n ≤ 0`,
`"<10"` when `0 < n < 10`, `"<50"` when `10 ≤ n < 50`, and `">50"` otherwise
(in particular `n = 50` maps to `">50"`). -/
theorem to_bucket_buckets (s : String) (n : Int)
    (h : pyFloatTrunc (prepVal (some s)) = some n) :
    (n ≤ 0 → to_bucket (some s) = "0") ∧
    (0 < n → n < 10 → to_bucket (some s) = "<10") ∧
    (10 ≤ n → n < 50 → to_bucket (some s) = "<50") ∧
    (50 ≤ n → to_bucket (some s) = ">50") := by
  have hb := to_bucket_of_parse s n h
  refine ⟨?_, ?_, ?_, ?_⟩
  · intro h0
    rw [hb]
    unfold bucketOf
    rw [if_pos h0]
  · intro h0 h10
    rw [hb]
    unfold bucketOf
    rw [if_neg (by omega), if_pos h10]
  · intro h10 h50
    rw [hb]
    unfold bucketOf
    rw [if_neg (by omega), if_neg (by omega), if_pos h50]
  · intro h50
    rw [hb]
    unfold bucketOf
    rw [if_neg (by omega), if_neg (by omega), if_neg (by omega)]

/-- Witness for C1: `"50"` parses to `50` and is bucketed to `">50"`. -/
theorem to_bucket_buckets_witness : to_bucket (some "50") = ">50" :=
  (to_bucket_buckets "50" 50 (by decide)).2.2.2 (by decide)

/-- C9: `None`, `""`, `"None"`, `"nan"` and every string that does not parse
as a number (after stripping and comma-to-dot replacement) are bucketed to
`"0"` rather than raising, and a decimal comma is accepted (`"9,5"` is
bucketed as `9.5`). -/
theorem to_bucket_fallback :
    to_bucket none = "0" ∧ to_bucket (some "") = "0" ∧
    to_bucket (some "None") = "0" ∧ to_bucket (some "nan") = "0" ∧
    (∀ s : String, pyFloatTrunc (prepVal (some s)) = none → to_bucket (some s) = "0") ∧
    to_bucket (some "9,5") = "<10" := by
  refine ⟨by decide, by decide, by decide, by decide, ?_, by decide⟩
  intro s hs
  simp only [to_bucket]
  split
  · rfl
  · rw [hs]
    rfl

/-- Witness for C9: the non-numeric string `"abc"` is bucketed to `"0"`. -/
theorem to_bucket_fallback_witness : to_bucket (some "abc") = "0" :=
  to_bucket_fallback.2.2.2.2.1 "abc" (by decide)

/-! ## Lemmas about `natToStr` (decimal formatting) -/

lemma digitChar_not_space (d : Nat) : isPySpace (digitChar d) = false := by
  match d with
  | 0 => rfl
  | 1 => rfl
  | 2 => rfl
  | 3 => rfl
  | 4 => rfl
  | 5 => rfl
  | 6 => rfl
  | 7 => rfl
  | 8 => rfl
  | 9 => rfl
  | n + 10 => rfl

lemma digitChar_val (d : Nat) (h : d < 10) : (digitChar d).toNat - 48 = d := by
  match d with
  | 0 => rfl
  | 1 => rfl
  | 2 => rfl
  | 3 => rfl
  | 4 => rfl
  | 5 => rfl
  | 6 => rfl
  | 7 => rfl
  | 8 => rfl
  | 9 => rfl
  | n + 10 => omega

lemma natToChars_mem (f n : Nat) (c : Char) (h : c ∈ natToChars f n) :
    ∃ d, c = digitChar d := by
  induction f generalizing n with
  | zero => simp [natToChars] at h
  | succ f ih =>
    rw [natToChars] at h
    by_cases hn : n < 10
    · rw [if_pos hn] at h
      exact ⟨n, by simpa using h⟩
    · rw [if_neg hn] at h
      rcases List.mem_append.1 h with h1 | h2
      · exact ih (n / 10) h1
      · exact ⟨n % 10, by simpa using h2⟩

lemma natToStr_not_space (n : Nat) (c : Char) (h : c ∈ (natToStr n).data) :
    isPySpace c = false := by
  obtain ⟨d, rfl⟩ := natToChars_mem (n + 1) n c h
  exact digitChar_not_space d

lemma digitsVal_concat (l : List Char) (c : Char) :
    digitsVal (l ++ [c]) = digitsVal l * 10 + (c.toNat - 48) := by
  simp [digitsVal, List.foldl_append]

lemma digitsVal_natToChars (f n : Nat) (h : n < 10 ^ (f + 1)) :
    digitsVal (natToChars (f + 1) n) = n := by
  induction f generalizing n with
  | zero =>
    have hn : n < 10 := by simpa using h
    rw [natToChars, if_pos hn]
    show digitsVal [digitChar n] = n
    simp [digitsVal, digitChar_val n hn]
  | succ f ih =>
    by_cases hn : n < 10
    · rw [natToChars, if_pos hn]
      show digitsVal [digitChar n] = n
      simp [digitsVal, digitChar_val n hn]
    · rw [natToChars, if_neg hn]
      have hdiv : n / 10 < 10 ^ (f + 1) := by
        rw [pow_succ] at h
        omega
      rw [digitsVal_concat, ih (n / 10) hdiv, digitChar_val (n % 10) (Nat.mod_lt n (by omega))]
      omega

lemma n_lt_ten_pow (n : Nat) : n < 10 ^ (n + 1) := by
  have h1 : n < 2 ^ n := Nat.lt_two_pow n
  have h2 : (2 : Nat) ^ n ≤ 10 ^ n := Nat.pow_le_pow_left (by omega) n
  have h3 : (10 : Nat) ^ n ≤ 10 ^ (n + 1) := Nat.pow_le_pow_right (by omega) (by omega)
  omega

lemma natToChars_inj (a b : Nat) (h : natToChars (a + 1) a = natToChars (b + 1) b) : a = b := by
  have ha := digitsVal_natToChars a a (n_lt_ten_pow a)
  rw [h, digitsVal_natToChars b b (n_lt_ten_pow b)] at ha
  omega

lemma natToStr_inj : Function.Injective natToStr := by
  intro a b hab
  exact natToChars_inj a b (congrArg String.data hab)

lemma string_data_append (s t : String) : (s ++ t).data = s.data ++ t.data := by
  cases s
  cases t
  rfl

/-! ## Lemmas about `make_unique` -/

lemma makeUniqueAux_length (names : List (Option String)) (seen : String → Nat) :
    (makeUniqueAux names seen).length = names.length := by
  induction names generalizing seen with
  | nil => rfl
  | cons n rest ih => simp [makeUniqueAux, ih]

/-- `make_unique` is the identity on a duplicate-free list of names that are
nonempty and already stripped. -/
lemma makeUniqueAux_id (names : List String) (seen : String → Nat)
    (h0 : ∀ m ∈ names, seen m = 0)
    (hbase : ∀ m ∈ names, baseOf (some m) = m)
    (hnd : names.Nodup) :
    makeUniqueAux (names.map some) seen = names := by
  induction names generalizing seen with
  | nil => rfl
  | cons nm rest ih =>
    have hb : baseOf (some nm) = nm := hbase nm (List.mem_cons_self nm rest)
    have hs : seen nm = 0 := h0 nm (List.mem_cons_self nm rest)
    simp only [List.map_cons, makeUniqueAux, hb, hs, if_pos rfl]
    refine congrArg (nm :: ·) ?_
    apply ih
    all_goals first
      | exact List.Nodup.of_cons hnd
      | (intro m hm
         first
           | exact hbase m (List.mem_cons_of_mem nm hm)
           | (have hne : m ≠ nm := by
                intro he
                exact (List.nodup_cons.1 hnd).1 (he ▸ hm)
              simp only [if_neg hne]
              exact h0 m (List.mem_cons_of_mem nm hm)))

/-- C8 (code bug witness): on `["a", "a", "a__2"]` the renaming scheme of
`make_unique` collides with an input name, so the output has a duplicate,
contradicting the function's stated purpose of ensuring unique names. -/
theorem make_unique_collision :
    make_unique [some "a", some "a", some "a__2"] = ["a", "a__2", "a__2"] ∧
    ¬ (make_unique [some "a", some "a", some "a__2"]).Nodup := by
  constructor
  · decide
  · decide

/-! ## Claim C10: `read_table` invariants -/

lemma colName_chars (k : Nat) (c : Char) (h : c ∈ ("col" ++ natToStr k).data) :
    isPySpace c = false := by
  rw [string_data_append] at h
  rcases List.mem_append.1 h with h1 | h2
  · have : c = 'c' ∨ c = 'o' ∨ c = 'l' := by simpa [String.data] using h1
    rcases this with rfl | rfl | rfl <;> rfl
  · exact natToStr_not_space k c h2

lemma colName_ne_empty (k : Nat) : ("col" ++ natToStr k) ≠ "" := by
  intro h
  have := congrArg String.data h
  rw [string_data_append] at this
  simp [String.data] at this

lemma baseOf_colName (k : Nat) : baseOf (some ("col" ++ natToStr k)) = "col" ++ natToStr k := by
  show (if pyStrip ("col" ++ natToStr k) = "" then "col" else pyStrip ("col" ++ natToStr k)) = _
  rw [pyStrip_eq_self_of_all _ (colName_chars k)]
  exact if_neg (colName_ne_empty k)

lemma colName_inj : Function.Injective (fun i : Nat => "col" ++ natToStr (i + 1)) := by
  intro a b hab
  have hd := congrArg String.data hab
  rw [string_data_append, string_data_append] at hd
  have := natToChars_inj (a + 1) (b + 1) (List.append_cancel_left hd)
  omega

lemma defaultCols_nodup (n : Nat) : (defaultCols n).Nodup :=
  (List.nodup_range n).map colName_inj

lemma make_unique_defaultCols (n : Nat) :
    make_unique ((defaultCols n).map some) = defaultCols n := by
  apply makeUniqueAux_id
  · intro m _
    rfl
  · intro m hm
    obtain ⟨i, _, rfl⟩ := List.mem_map.1 hm
    exact baseOf_colName (i + 1)
  · exact defaultCols_nodup n

lemma read_table_rows_eq (hdrValues body : List (List RawCell)) :
    (read_table hdrValues body).rows =
      body.map (fun r => (padRow (ncolsOf body) r).map clean_cell) := rfl

lemma clean_cell_stripped (x : RawCell) : pyStrip (clean_cell x) = clean_cell x := by
  cases x with
  | none => rfl
  | some s => exact pyStrip_idem s

/-- C10: every cell of the frame returned by `read_table` is a stripped
string; NaN/None cells (including NaN padding of short rows) become `""`;
and when the header row is empty or its length differs from the body's
column count, the columns are named `"col1" .. "colN"`. -/
theorem read_table_spec (hdrValues body : List (List RawCell)) :
    (∀ row ∈ (read_table hdrValues body).rows, ∀ cell ∈ row, pyStrip cell = cell) ∧
    (∀ i j, cellAt body i j = some none →
      cellAt (read_table hdrValues body).rows i j = some "") ∧
    (∀ i r, body[i]? = some r → ∀ j, r.length ≤ j → j < ncolsOf body →
      cellAt (read_table hdrValues body).rows i j = some "") ∧
    ((hdrValues.headD [] = [] ∨ (hdrValues.headD []).length ≠ ncolsOf body) →
      (read_table hdrValues body).cols = defaultCols (ncolsOf body)) := by
  refine ⟨?_, ?_, ?_, ?_⟩
  · intro row hrow cell hcell
    rw [read_table_rows_eq] at hrow
    obtain ⟨r, _, rfl⟩ := List.mem_map.1 hrow
    obtain ⟨raw, _, rfl⟩ := List.mem_map.1 hcell
    exact clean_cell_stripped raw
  · intro i j h
    unfold cellAt at h ⊢
    cases hb : body[i]? with
    | none => rw [hb] at h; simp at h
    | some r =>
      rw [hb] at h
      simp only [Option.some_bind] at h
      rw [read_table_rows_eq, List.getElem?_map, hb]
      simp only [Option.map_some', Option.some_bind]
      have hj : j < r.length := by
        rcases List.getElem?_eq_some_iff.1 h with ⟨hlt, _⟩
        exact hlt
      rw [List.getElem?_map]
      unfold padRow
      rw [List.getElem?_append_left hj, h]
      rfl
  · intro i r hb j hlen hn
    unfold cellAt
    rw [read_table_rows_eq, List.getElem?_map, hb]
    simp only [Option.map_some', Option.some_bind]
    rw [List.getElem?_map]
    unfold padRow
    rw [List.getElem?_append_right hlen, List.getElem?_replicate, if_pos (by omega)]
    rfl
  · intro hcond
    show make_unique _ = _
    have hnames :
        (if ((hdrValues.headD []).map (fun h => pyStrip (pyStr h)) ≠ [] ∧
            ((hdrValues.headD []).map (fun h => pyStrip (pyStr h))).length = ncolsOf body)
          then (hdrValues.headD []).map (fun h => pyStrip (pyStr h))
          else defaultCols (ncolsOf body)) = defaultCols (ncolsOf body) := by
      apply if_neg
      rcases hcond with hemp | hlen
      · intro ⟨hne, _⟩
        exact hne (by rw [hemp]; rfl)
      · intro ⟨_, hl⟩
        rw [List.length_map] at hl
        exact hlen hl
    rw [hnames, make_unique_defaultCols]

/-- Witness for C10: a body with a short row and a one-cell header of the
wrong length gets default column names and empty-string padding. -/
theorem read_table_spec_witness :
    cellAt (read_table [[some "H"]] [[some " x ", none], [some "1"]]).rows 1 1 = some "" ∧
    (read_table [[some "H"]] [[some " x ", none], [some "1"]]).cols = defaultCols 2 := by
  constructor
  · exact (read_table_spec [[some "H"]] [[some " x ", none], [some "1"]]).2.2.1 1 [some "1"]
      (by decide) 1 (by decide) (by decide)
  · exact (read_table_spec [[some "H"]] [[some " x ", none], [some "1"]]).2.2.2 (by decide)

/-! ## Lemmas about `mapRow`, `setCol` and `preFrame` -/

lemma mapRow_getElem? (t : String) (f : String → String) (r : List String) :
    ∀ (cs : List String) (j : Nat),
      (mapRow t f cs r)[j]? = (r[j]?).map (fun x => if cs[j]? = some t then f x else x) := by
  induction r with
  | nil => intro cs j; cases cs <;> simp [mapRow]
  | cons x xs ih =>
    intro cs j
    cases cs with
    | nil => simp [mapRow]
    | cons c cs' =>
      cases j with
      | zero => simp [mapRow]
      | succ j' => simpa [mapRow] using ih cs' j'

lemma mapRow_length (t : String) (f : String → String) (r : List String) :
    ∀ cs : List String, (mapRow t f cs r).length = r.length := by
  induction r with
  | nil => intro cs; cases cs <;> rfl
  | cons x xs ih =>
    intro cs
    cases cs with
    | nil => rfl
    | cons c cs' => simp [mapRow, ih cs']

lemma setCol_cols_mem (fr : Frame) (name v : String) : name ∈ (setCol fr name v).cols := by
  unfold setCol
  split
  · assumption
  · exact List.mem_append_right _ (List.mem_singleton.2 rfl)

lemma setCol_cols_of_mem (fr : Frame) (name v : String) (h : name ∈ fr.cols) :
    (setCol fr name v).cols = fr.cols := by
  unfold setCol
  rw [if_pos h]

lemma setCol_cols_of_not_mem (fr : Frame) (name v : String) (h : name ∉ fr.cols) :
    (setCol fr name v).cols = fr.cols ++ [name] := by
  unfold setCol
  rw [if_neg h]

lemma setCol_rows_length (fr : Frame) (name v : String) :
    (setCol fr name v).rows.length = fr.rows.length := by
  unfold setCol
  split <;> simp

lemma setCol_cell (fr : Frame) (name v : String)
    (hrect : ∀ r ∈ fr.rows, r.length = fr.cols.length)
    (i : Nat) (r' : List String) (h : (setCol fr name v).rows[i]? = some r')
    (j : Nat) (hj : (setCol fr name v).cols[j]? = some name) : r'[j]? = some v := by
  unfold setCol at h hj
  by_cases hmem : name ∈ fr.cols
  · rw [if_pos hmem] at h hj
    simp only [List.getElem?_map] at h
    cases hb : fr.rows[i]? with
    | none => rw [hb] at h; simp at h
    | some r =>
      rw [hb] at h
      simp only [Option.map_some'] at h
      obtain rfl : mapRow name (fun _ => v) fr.cols r = r' := Option.some.inj h
      rw [mapRow_getElem?, hj]
      have hjlen : j < fr.cols.length := (List.getElem?_eq_some_iff.1 hj).1
      have hrlen : r.length = fr.cols.length := hrect r (List.getElem?_mem hb)
      cases hr : r[j]? with
      | none =>
        have := (List.getElem?_eq_none_iff.1 hr)
        omega
      | some x => simp
  · rw [if_neg hmem] at h hj
    simp only [List.getElem?_map] at h
    cases hb : fr.rows[i]? with
    | none => rw [hb] at h; simp at h
    | some r =>
      rw [hb] at h
      simp only [Option.map_some'] at h
      obtain rfl : r ++ [v] = r' := Option.some.inj h
      have hrlen : r.length = fr.cols.length := hrect r (List.getElem?_mem hb)
      have hjeq : j = fr.cols.length := by
        by_cases hlt : j < fr.cols.length
        · exact absurd (List.getElem?_mem (List.getElem?_append_left hlt ▸ hj)) hmem
        · have h2 := hj
          rw [List.getElem?_append_right (by omega)] at h2
          have := (List.getElem?_eq_some_iff.1 h2).1
          simp at this
          omega
      rw [hjeq, ← hrlen, List.getElem?_concat_length]

lemma setCol_cell_pres (fr : Frame) (name v : String)
    (hrect : ∀ r ∈ fr.rows, r.length = fr.cols.length)
    (i : Nat) (r r' : List String)
    (hb : fr.rows[i]? = some r) (h : (setCol fr name v).rows[i]? = some r')
    (j : Nat) (c : String) (hc : fr.cols[j]? = some c) (hne : c ≠ name) :
    r'[j]? = r[j]? := by
  unfold setCol at h
  by_cases hmem : name ∈ fr.cols
  · rw [if_pos hmem] at h
    simp only [List.getElem?_map, hb, Option.map_some'] at h
    obtain rfl : mapRow name (fun _ => v) fr.cols r = r' := Option.some.inj h
    rw [mapRow_getElem?, hc]
    cases r[j]? <;> simp [hne]
  · rw [if_neg hmem] at h
    simp only [List.getElem?_map, hb, Option.map_some'] at h
    obtain rfl : r ++ [v] = r' := Option.some.inj h
    have hjlen : j < fr.cols.length := (List.getElem?_eq_some_iff.1 hc).1
    have hrlen : r.length = fr.cols.length := hrect r (List.getElem?_mem hb)
    exact List.getElem?_append_left (by omega)

lemma preFrame_cols (fr : Frame) : (preFrame fr).cols = fr.cols := by
  unfold preFrame
  cases stockCol? fr <;> rfl

lemma preFrame_rows_length (fr : Frame) : (preFrame fr).rows.length = fr.rows.length := by
  unfold preFrame
  cases stockCol? fr <;> simp [mapColByName]

lemma preFrame_rect (fr : Frame) (hrect : ∀ r ∈ fr.rows, r.length = fr.cols.length) :
    ∀ r ∈ (preFrame fr).rows, r.length = (preFrame fr).cols.length := by
  rw [preFrame_cols]
  unfold preFrame
  cases stockCol? fr with
  | none => exact hrect
  | some sc =>
    intro r hr
    obtain ⟨r0, hr0, rfl⟩ := List.mem_map.1 hr
    rw [mapRow_length]
    exact hrect r0 hr0

lemma preFrame_cell_pres (fr : Frame) (i j : Nat) (c : String)
    (hcol : fr.cols[j]? = some c) (hc : stockCol? fr ≠ some c)
    (r r' : List String) (hb : fr.rows[i]? = some r)
    (h : (preFrame fr).rows[i]? = some r') : r'[j]? = r[j]? := by
  cases hsc : stockCol? fr with
  | none =>
    have hpre : preFrame fr = fr := by
      unfold preFrame
      rw [hsc]
    rw [hpre, hb] at h
    obtain rfl : r = r' := Option.some.inj h
    rfl
  | some sc =>
    have hpre : preFrame fr = mapColByName fr sc to_bucketCell := by
      unfold preFrame
      rw [hsc]
    rw [hpre] at h
    simp only [mapColByName, List.getElem?_map, hb, Option.map_some'] at h
    obtain rfl : mapRow sc to_bucketCell fr.cols r = r' := Option.some.inj h
    rw [mapRow_getElem?, hcol]
    have hne : c ≠ sc := by
      intro he
      exact hc (he ▸ hsc)
    cases r[j]? <;> simp [hne]

lemma preFrame_cell_stock (fr : Frame) (sc : String) (hsc : stockCol? fr = some sc)
    (i j : Nat) (hcol : fr.cols[j]? = some sc)
    (r r' : List String) (hb : fr.rows[i]? = some r)
    (h : (preFrame fr).rows[i]? = some r') : r'[j]? = (r[j]?).map to_bucketCell := by
  have hpre : preFrame fr = mapColByName fr sc to_bucketCell := by
    unfold preFrame
    rw [hsc]
  rw [hpre] at h
  simp only [mapColByName, List.getElem?_map, hb, Option.map_some'] at h
  obtain rfl : mapRow sc to_bucketCell fr.cols r = r' := Option.some.inj h
  rw [mapRow_getElem?, hcol]
  simp

lemma stockCol?_lower (fr : Frame) (sc : String) (hsc : stockCol? fr = some sc) :
    pyLower sc = "stock" := by
  unfold stockCol? at hsc
  obtain ⟨ys, hys⟩ := List.getLast?_eq_some_iff.1 hsc
  have : sc ∈ fr.cols.filter (fun c => pyLower c = "stock") := by
    rw [hys]
    exact List.mem_append_right _ (List.mem_singleton.2 rfl)
  simpa using (List.mem_filter.1 this).2

/-! ## Claims C2, C4, C5: `apply_business_rules` -/

/-- C2: for every rectangular dataframe and timestamp string, the frame
returned by `apply_business_rules` contains an `"updatedAt"` column whose
value in every row equals the timestamp. -/
theorem apply_business_rules_updatedAt (fr : Frame) (ts : String)
    (hrect : ∀ r ∈ fr.rows, r.length = fr.cols.length) :
    "updatedAt" ∈ (apply_business_rules fr ts).cols ∧
    ∀ (i : Nat) (r' : List String), (apply_business_rules fr ts).rows[i]? = some r' →
      ∀ j : Nat, (apply_business_rules fr ts).cols[j]? = some "updatedAt" →
        r'[j]? = some ts := by
  constructor
  · exact setCol_cols_mem (preFrame fr) "updatedAt" ts
  · intro i r' h j hj
    exact setCol_cell (preFrame fr) "updatedAt" ts (preFrame_rect fr hrect) i r' h j hj

/-- Witness for C2 on a concrete one-column frame. -/
theorem apply_business_rules_updatedAt_witness :
    "updatedAt" ∈ (apply_business_rules ⟨["a"], [["x"]]⟩ "T").cols :=
  (apply_business_rules_updatedAt ⟨["a"], [["x"]]⟩ "T" (by decide)).1

/-- C4: on a rectangular dataframe, `apply_business_rules` keeps the number
of rows, and every column other than the stock column picked by the code and
`"updatedAt"` keeps exactly its prior values. -/
theorem apply_business_rules_frame (fr : Frame) (ts : String)
    (hrect : ∀ r ∈ fr.rows, r.length = fr.cols.length) :
    (apply_business_rules fr ts).rows.length = fr.rows.length ∧
    ∀ (i : Nat) (r r' : List String), fr.rows[i]? = some r →
      (apply_business_rules fr ts).rows[i]? = some r' →
      ∀ (j : Nat) (c : String), fr.cols[j]? = some c → stockCol? fr ≠ some c →
        c ≠ "updatedAt" → r'[j]? = r[j]? := by
  constructor
  · rw [show apply_business_rules fr ts = setCol (preFrame fr) "updatedAt" ts from rfl,
      setCol_rows_length, preFrame_rows_length]
  · intro i r r' hb h j c hc hcstock hcupd
    have hilt : i < fr.rows.length := (List.getElem?_eq_some_iff.1 hb).1
    have hpre : ∃ r1, (preFrame fr).rows[i]? = some r1 := by
      have : i < (preFrame fr).rows.length := by
        rw [preFrame_rows_length]
        exact hilt
      exact ⟨(preFrame fr).rows[i], (List.getElem?_eq_some_iff.2 ⟨this, rfl⟩)⟩
    obtain ⟨r1, hr1⟩ := hpre
    have hstep1 : r1[j]? = r[j]? := preFrame_cell_pres fr i j c hc hcstock r r1 hb hr1
    have hstep2 : r'[j]? = r1[j]? := by
      refine setCol_cell_pres (preFrame fr) "updatedAt" ts (preFrame_rect fr hrect)
        i r1 r' hr1 h j c ?_ hcupd
      rw [preFrame_cols]
      exact hc
    rw [hstep2, hstep1]

/-- Witness for C4 on a concrete frame with a stock column: the non-stock
column keeps its value. -/
theorem apply_business_rules_frame_witness :
    (["p", "<10", "T"] : List String)[0]? = (["p", "7"] : List String)[0]? :=
  (apply_business_rules_frame ⟨["Art", "Stock"], [["p", "7"]]⟩ "T" (by decide)).2
    0 ["p", "7"] ["p", "<10", "T"] (by decide) (by decide) 0 "Art" (by decide)
    (by decide) (by decide)

/-- C5 counterexample: a dataframe with no stock column but a pre-existing
`updatedAt` column does not keep all its prior values: the `updatedAt`
column is overwritten with the timestamp. -/
theorem apply_business_rules_no_stock_overwrites :
    stockCol? ⟨["a", "updatedAt"], [["p", "x"]]⟩ = none ∧
    (apply_business_rules ⟨["a", "updatedAt"], [["p", "x"]]⟩ "T").cols = ["a", "updatedAt"] ∧
    (apply_business_rules ⟨["a", "updatedAt"], [["p", "x"]]⟩ "T").rows = [["p", "T"]] ∧
    (["p", "T"] : List String) ≠ ["p", "x"] := by
  refine ⟨by decide, by decide, by decide, by decide⟩

/-- C5 (amended): on a rectangular dataframe, when a column whose lowercased
name is `"stock"` exists, the column picked by the code is mapped cell-wise
through `to_bucket`; when none exists, all pre-existing values outside a
pre-existing `"updatedAt"` column are unchanged, and `"updatedAt"` is
overwritten in place when present and appended when absent. -/
theorem apply_business_rules_stock_cases (fr : Frame) (ts : String)
    (hrect : ∀ r ∈ fr.rows, r.length = fr.cols.length) :
    (∀ sc, stockCol? fr = some sc →
      ∀ (i : Nat) (r r' : List String), fr.rows[i]? = some r →
        (apply_business_rules fr ts).rows[i]? = some r' →
        ∀ j : Nat, fr.cols[j]? = some sc → r'[j]? = (r[j]?).map to_bucketCell) ∧
    (stockCol? fr = none →
      (∀ (i : Nat) (r r' : List String), fr.rows[i]? = some r →
        (apply_business_rules fr ts).rows[i]? = some r' →
        ∀ (j : Nat) (c : String), fr.cols[j]? = some c → c ≠ "updatedAt" →
          r'[j]? = r[j]?) ∧
      ("updatedAt" ∈ fr.cols → (apply_business_rules fr ts).cols = fr.cols) ∧
      ("updatedAt" ∉ fr.cols → (apply_business_rules fr ts).cols = fr.cols ++ ["updatedAt"])) := by
  constructor
  · intro sc hsc i r r' hb h j hj
    have hscupd : sc ≠ "updatedAt" := by
      intro he
      have := stockCol?_lower fr sc hsc
      rw [he] at this
      exact absurd this (by decide)
    have hilt : i < fr.rows.length := (List.getElem?_eq_some_iff.1 hb).1
    have hpre : ∃ r1, (preFrame fr).rows[i]? = some r1 := by
      have : i < (preFrame fr).rows.length := by
        rw [preFrame_rows_length]
        exact hilt
      exact ⟨(preFrame fr).rows[i], (List.getElem?_eq_some_iff.2 ⟨this, rfl⟩)⟩
    obtain ⟨r1, hr1⟩ := hpre
    have hstep1 : r1[j]? = (r[j]?).map to_bucketCell :=
      preFrame_cell_stock fr sc hsc i j hj r r1 hb hr1
    have hstep2 : r'[j]? = r1[j]? := by
      refine setCol_cell_pres (preFrame fr) "updatedAt" ts (preFrame_rect fr hrect)
        i r1 r' hr1 h j sc ?_ hscupd
      rw [preFrame_cols]
      exact hj
    rw [hstep2, hstep1]
  · intro hsc
    have hpre : preFrame fr = fr := by
      unfold preFrame
      rw [hsc]
    refine ⟨?_, ?_, ?_⟩
    · intro i r r' hb h j c hc hcupd
      rw [show apply_business_rules fr ts = setCol (preFrame fr) "updatedAt" ts from rfl,
        hpre] at h
      exact setCol_cell_pres fr "updatedAt" ts hrect i r r' hb h j c hc hcupd
    · intro hmem
      rw [show apply_business_rules fr ts = setCol (preFrame fr) "updatedAt" ts from rfl,
        hpre]
      exact setCol_cols_of_mem fr "updatedAt" ts hmem
    · intro hmem
      rw [show apply_business_rules fr ts = setCol (preFrame fr) "updatedAt" ts from rfl,
        hpre]
      exact setCol_cols_of_not_mem fr "updatedAt" ts hmem

/-- Witness for C5 (amended) on a concrete frame whose stock column holds
`"7"`: the cell is bucketed to `"<10"`. -/
theorem apply_business_rules_stock_cases_witness :
    (["<10", "T"] : List String)[0]? = ((["7"] : List String)[0]?).map to_bucketCell :=
  (apply_business_rules_stock_cases ⟨["STOCK"], [["7"]]⟩ "T" (by decide)).1 "STOCK"
    (by decide) 0 ["7"] ["<10", "T"] (by decide) (by decide) 0 (by decide)

/-! ## Claim C7: `resolve_item_id` -/

lemma resolve_eq_of_path (xlsxPath : String) (tryPath : String → HttpResp)
    (searchRes : List DriveItem) (p : String)
    (hp : (candidatesOf xlsxPath).find? (fun p => (tryPath p).status < 400) = some p) :
    resolve_item_id xlsxPath tryPath searchRes = Except.ok (tryPath p).id := by
  unfold resolve_item_id
  rw [hp]

lemma resolve_eq_of_search (xlsxPath : String) (tryPath : String → HttpResp)
    (searchRes : List DriveItem) (it : DriveItem)
    (hf : (candidatesOf xlsxPath).find? (fun p => (tryPath p).status < 400) = none)
    (hs : searchRes.find?
      (fun it => parentMatches (searchVariantsOf xlsxPath) it.parentPath) = some it) :
    resolve_item_id xlsxPath tryPath searchRes = Except.ok it.id := by
  unfold resolve_item_id
  rw [hf, hs]

lemma resolve_eq_of_none (xlsxPath : String) (tryPath : String → HttpResp)
    (searchRes : List DriveItem)
    (hf : (candidatesOf xlsxPath).find? (fun p => (tryPath p).status < 400) = none)
    (hs : searchRes.find?
      (fun it => parentMatches (searchVariantsOf xlsxPath) it.parentPath) = none) :
    resolve_item_id xlsxPath tryPath searchRes =
      Except.error "Excel workbook not found via Graph." := by
  unfold resolve_item_id
  rw [hf, hs]

/-- C7: the resolver returns the id from a direct path lookup whenever some
path variant request has status below 400 (and then never consults the
search fallback), and raises `RuntimeError` exactly when every path variant
fails and no search result has a matching parent folder. -/
theorem resolve_item_id_spec (xlsxPath : String) (tryPath : String → HttpResp)
    (searchRes : List DriveItem) :
    ((∃ p ∈ candidatesOf xlsxPath, (tryPath p).status < 400) →
      (∃ p ∈ candidatesOf xlsxPath, (tryPath p).status < 400 ∧
        resolve_item_id xlsxPath tryPath searchRes = Except.ok (tryPath p).id) ∧
      (∀ sr' : List DriveItem,
        resolve_item_id xlsxPath tryPath sr' = resolve_item_id xlsxPath tryPath searchRes)) ∧
    (resolve_item_id xlsxPath tryPath searchRes =
        Except.error "Excel workbook not found via Graph." ↔
      (∀ p ∈ candidatesOf xlsxPath, ¬ (tryPath p).status < 400) ∧
      (∀ it ∈ searchRes,
        parentMatches (searchVariantsOf xlsxPath) it.parentPath = false)) := by
  constructor
  · intro hex
    have hfind : ∃ p, (candidatesOf xlsxPath).find?
        (fun p => (tryPath p).status < 400) = some p := by
      cases hf : (candidatesOf xlsxPath).find? (fun p => (tryPath p).status < 400) with
      | none =>
        obtain ⟨p, hp, hplt⟩ := hex
        exact absurd (by simpa using List.find?_eq_none.1 hf p hp) (by simpa using hplt)
      | some p => exact ⟨p, rfl⟩
    obtain ⟨p, hp⟩ := hfind
    constructor
    · refine ⟨p, List.mem_of_find?_eq_some hp, ?_, ?_⟩
      · simpa using List.find?_some hp
      · exact resolve_eq_of_path xlsxPath tryPath searchRes p hp
    · intro sr'
      rw [resolve_eq_of_path xlsxPath tryPath searchRes p hp,
        resolve_eq_of_path xlsxPath tryPath sr' p hp]
  · cases hf : (candidatesOf xlsxPath).find? (fun p => (tryPath p).status < 400) with
    | some p =>
      rw [resolve_eq_of_path xlsxPath tryPath searchRes p hf]
      constructor
      · intro h
        exact absurd h (by simp)
      · intro ⟨hall, _⟩
        exact absurd (by simpa using List.find?_some hf)
          (by simpa using hall p (List.mem_of_find?_eq_some hf))
    | none =>
      cases hs : searchRes.find?
          (fun it => parentMatches (searchVariantsOf xlsxPath) it.parentPath) with
      | some it =>
        rw [resolve_eq_of_search xlsxPath tryPath searchRes it hf hs]
        constructor
        · intro h
          exact absurd h (by simp)
        · intro ⟨_, hnone⟩
          exact absurd (List.find?_some hs)
            (by simp [hnone it (List.mem_of_find?_eq_some hs)])
      | none =>
        rw [resolve_eq_of_none xlsxPath tryPath searchRes hf hs]
        constructor
        · intro _
          constructor
          · intro p hp
            simpa using List.find?_eq_none.1 hf p hp
          · intro it hit
            simpa using List.find?_eq_none.1 hs it hit
        · intro _
          rfl

/-- Witness for C7: with an oracle succeeding on the `/Documents` variant,
the resolver returns that id by direct path. -/
theorem resolve_item_id_spec_witness :
    ∃ p ∈ candidatesOf "/Shared Documents/Data/f.xlsx",
      ((fun p => if p = "/Documents/Data/f.xlsx" then
          HttpResp.mk 200 "ID7" else HttpResp.mk 404 "") p).status < 400 ∧
      resolve_item_id "/Shared Documents/Data/f.xlsx"
        (fun p => if p = "/Documents/Data/f.xlsx" then
          HttpResp.mk 200 "ID7" else HttpResp.mk 404 "") [] =
        Except.ok ((fun p => if p = "/Documents/Data/f.xlsx" then
          HttpResp.mk 200 "ID7" else HttpResp.mk 404 "") p).id :=
  ((resolve_item_id_spec "/Shared Documents/Data/f.xlsx"
      (fun p => if p = "/Documents/Data/f.xlsx" then
        HttpResp.mk 200 "ID7" else HttpResp.mk 404 "") []).1
    ⟨"/Documents/Data/f.xlsx", by decide, by decide⟩).1

/-! ## Claims C6 and C3: `main` -/

lemma mainRun_pipeline_fail (st : MainStages) (e : String) (hp : pipeline st = Except.error e) :
    mainRun st = (1, []) := by
  unfold mainRun
  rw [hp]

lemma mainRun_mkdir_fail (st : MainStages) (df : Frame) (e : String)
    (hp : pipeline st = Except.ok df) (hd : st.makeOutDir = Except.error e) :
    mainRun st = (1, []) := by
  unfold mainRun
  rw [hp]
  show writePhase st df = (1, [])
  unfold writePhase
  rw [hd]

lemma mainRun_csv_fail (st : MainStages) (df : Frame) (e : String)
    (hp : pipeline st = Except.ok df) (hd : st.makeOutDir = Except.ok ())
    (hc : st.writeCsv df = Except.error e) :
    mainRun st = (1, []) := by
  unfold mainRun
  rw [hp]
  show writePhase st df = (1, [])
  unfold writePhase
  rw [hd, hc]

lemma mainRun_json_fail (st : MainStages) (df : Frame) (e : String)
    (hp : pipeline st = Except.ok df) (hd : st.makeOutDir = Except.ok ())
    (hc : st.writeCsv df = Except.ok ()) (hj : st.writeJson df = Except.error e) :
    mainRun st = (1, [("docs/public_price_stock.csv", OutFormat.csv)]) := by
  unfold mainRun
  rw [hp]
  show writePhase st df = _
  unfold writePhase
  rw [hd, hc, hj]

lemma mainRun_success (st : MainStages) (df : Frame)
    (hp : pipeline st = Except.ok df) (hd : st.makeOutDir = Except.ok ())
    (hc : st.writeCsv df = Except.ok ()) (hj : st.writeJson df = Except.ok ()) :
    mainRun st = (0, mainOutputs) := by
  unfold mainRun
  rw [hp]
  show writePhase st df = _
  unfold writePhase
  rw [hd, hc, hj]

/-- C6: `main` returns 0 exactly when every stage (authentication, site and
item resolution, table read, transform, directory creation and both writes)
succeeds and 1 otherwise; no other exit code (and no escaping exception) is
possible. -/
theorem main_exit_codes (st : MainStages) :
    ((mainRun st).1 = 0 ∨ (mainRun st).1 = 1) ∧
    ((mainRun st).1 = 0 ↔ mainStagesOk st) ∧
    ((mainRun st).1 = 1 ↔ ¬ mainStagesOk st) := by
  have main2 : ((mainRun st).1 = 0 ∨ (mainRun st).1 = 1) ∧
      ((mainRun st).1 = 0 ↔ mainStagesOk st) := by
    cases hp : pipeline st with
    | error e =>
      rw [mainRun_pipeline_fail st e hp]
      refine ⟨Or.inr rfl, ?_, ?_⟩
      · intro h
        simp at h
      · intro ⟨df, hdf, _⟩
        rw [hp] at hdf
        simp at hdf
    | ok df =>
      cases hd : st.makeOutDir with
      | error e =>
        rw [mainRun_mkdir_fail st df e hp hd]
        refine ⟨Or.inr rfl, ?_, ?_⟩
        · intro h
          simp at h
        · intro ⟨df', _, hmk, _⟩
          rw [hd] at hmk
          simp at hmk
      | ok u =>
        cases u
        cases hc : st.writeCsv df with
        | error e =>
          rw [mainRun_csv_fail st df e hp hd hc]
          refine ⟨Or.inr rfl, ?_, ?_⟩
          · intro h
            simp at h
          · intro ⟨df', hdf', _, hwc, _⟩
            rw [hp] at hdf'
            obtain rfl : df = df' := Except.ok.inj hdf'
            rw [hc] at hwc
            simp at hwc
        | ok u =>
          cases u
          cases hj : st.writeJson df with
          | error e =>
            rw [mainRun_json_fail st df e hp hd hc hj]
            refine ⟨Or.inr rfl, ?_, ?_⟩
            · intro h
              simp at h
            · intro ⟨df', hdf', _, _, hwj⟩
              rw [hp] at hdf'
              obtain rfl : df = df' := Except.ok.inj hdf'
              rw [hj] at hwj
              simp at hwj
          | ok u =>
            cases u
            rw [mainRun_success st df hp hd hc hj]
            refine ⟨Or.inl rfl, ?_, ?_⟩
            · intro _
              exact ⟨df, hp, hd, hc, hj⟩
            · intro _
              rfl
  refine ⟨main2.1, main2.2, ?_, ?_⟩
  · intro h1 hok
    have h0 := main2.2.mpr hok
    omega
  · intro hnok
    rcases main2.1 with h0 | h1
    · exact absurd (main2.2.mp h0) hnok
    · exact h1

/-- Witness for C6: with all stages succeeding, `main` returns 0. -/
theorem main_exit_codes_witness :
    (mainRun ⟨Except.ok "tok", fun _ => Except.ok "site", fun _ _ => Except.ok "item",
      fun _ _ _ => Except.ok ⟨["Stock"], [["5"]]⟩, Except.ok (), fun _ => Except.ok (),
      fun _ => Except.ok (), "TS"⟩).1 = 0 :=
  (main_exit_codes ⟨Except.ok "tok", fun _ => Except.ok "site", fun _ _ => Except.ok "item",
      fun _ _ _ => Except.ok ⟨["Stock"], [["5"]]⟩, Except.ok (), fun _ => Except.ok (),
      fun _ => Except.ok (), "TS"⟩).2.1.mpr
    ⟨apply_business_rules ⟨["Stock"], [["5"]]⟩ "TS", rfl, rfl, rfl, rfl⟩

/-- C3 counterexample: `main` writes no XML output file; its output set
holds only the CSV and JSON serializations. -/
theorem main_no_xml_output : ¬ ∃ p ∈ mainOutputs, p.2 = OutFormat.xml := by
  decide

/-- C3 (amended): on a successful run, `main` serializes the final frame to
exactly one CSV and one JSON output file (and no XML file). -/
theorem main_outputs_csv_json :
    (∃ p ∈ mainOutputs, p.2 = OutFormat.csv) ∧
    (∃ p ∈ mainOutputs, p.2 = OutFormat.json) ∧
    (∀ p ∈ mainOutputs, p.2 ≠ OutFormat.xml) ∧
    ∀ st : MainStages, (mainRun st).1 = 0 → (mainRun st).2 = mainOutputs := by
  refine ⟨by decide, by decide, by decide, ?_⟩
  intro st h0
  cases hp : pipeline st with
  | error e =>
    rw [mainRun_pipeline_fail st e hp] at h0
    simp at h0
  | ok df =>
    cases hd : st.makeOutDir with
    | error e =>
      rw [mainRun_mkdir_fail st df e hp hd] at h0
      simp at h0
    | ok u =>
      cases u
      cases hc : st.writeCsv df with
      | error e =>
        rw [mainRun_csv_fail st df e hp hd hc] at h0
        simp at h0
      | ok u =>
        cases u
        cases hj : st.writeJson df with
        | error e =>
          rw [mainRun_json_fail st df e hp hd hc hj] at h0
          simp at h0
        | ok u =>
          cases u
          rw [mainRun_success st df hp hd hc hj]

/-- Witness for C3 (amended): a concrete all-success run writes exactly the
CSV and JSON files. -/
theorem main_outputs_csv_json_witness :
    (mainRun ⟨Except.ok "t", fun _ => Except.ok "s", fun _ _ => Except.ok "i",
      fun _ _ _ => Except.ok ⟨["A"], [["x"]]⟩, Except.ok (), fun _ => Except.ok (),
      fun _ => Except.ok (), "T"⟩).2 = mainOutputs :=
  main_outputs_csv_json.2.2.2 _ rfl

end PublicPriceStock
